import Mathlib

/-!
Verification of the feedback-collector authentication and access-control
core.  The definitions below are a shallow embedding of the Go source:

* `internal/api/handlers/auth.go` — `Register`, `Login`, `GetCurrentUser`
  (package `handlers`) and `GenerateToken`, `AuthMiddleware`, `GetUserID`
  (package `middleware`);
* `internal/db/db.go` — `GetUserByEmail`, `GetUserByID`, `CreateUser`,
  `CreateRoom`, `GetRoomByID`;
* the room handlers `CreateRoom`, `GetRoomByID`, `JoinRoom`
  (package `handlers`);
* the models of `internal/models` with their JSON struct tags.

Modelling conventions:
* wall-clock time and unix timestamps are `Int` seconds;
* bcrypt is modelled as an injective salted hash: the hash string is the
  salt character followed by a separator and the password, and comparison
  recovers the password part — this preserves exactly the behaviour the
  code relies on (compare succeeds iff the candidate equals the hashed
  password, different salts give different hash strings, comparison of a
  malformed/empty hash fails);
* the HMAC signature of a JWT is modelled as an abstract perfect MAC: a
  signature value records the algorithm, key and signed payload, and
  verification checks structural equality (collision-freeness of the MAC);
* Go `error` values created by `errors.New` carry an allocation identity
  (a `Nat` counter threaded through the code); `errors.Is` on two such
  values compares identities, exactly as Go compares the two pointers.
  Errors that the code only ever nil-checks are modelled as plain strings;
* JSON binding of a request body is modelled by an `Option` of the bound
  struct (`none` = binding failed), since the claims only depend on
  whether binding succeeds;
* gin's per-request context key store is an association list, `c.Set`
  prepends and `c.Get` finds the first matching key.
-/

/-- A JSON value, as produced by gin's `c.JSON` serialization. -/
inductive JVal where
  | num : Int → JVal
  | str : String → JVal
  | jbool : Bool → JVal
  | obj : List (String × JVal) → JVal
deriving Repr

/-- `gin.H{"error": msg}` — the error bodies used throughout the handlers. -/
def errObj (msg : String) : JVal := .obj [("error", .str msg)]

/-- An HTTP response: status code and JSON body. -/
abbrev HResp := Nat × JVal

/-- A value stored in gin's request context (`c.Set` takes `any`). -/
inductive GoVal where
  | int : Int → GoVal
  | str : String → GoVal
deriving Repr, DecidableEq

/-- A Go `error` built by `errors.New`: the allocation identity models the
pointer of the `*errorString`, so two calls with the same message are
distinct values. -/
structure GoErr where
  allocID : Nat
  msg : String
deriving Repr, DecidableEq

/-- Go `errors.Is(err, target)` for non-wrapping `errors.New` values: the
interface comparison `err == target` is pointer equality, i.e. equality of
allocation identities. -/
def errorsIs (e target : GoErr) : Bool := e == target

/-- `models.User` (`internal/models`).  `PasswordHash` carries the json tag
`"-"` and is never serialized. -/
structure User where
  id : Int
  email : String
  passwordHash : String
  subscriptionType : String
  createdAt : Int
deriving Repr, DecidableEq

/-- `models.Room` (`internal/models`).  `Password` carries the json tag
`"-"` and is never serialized. -/
structure Room where
  id : String
  name : String
  password : String
  creatorID : Int
  isPasswordProtected : Bool
  createdAt : Int
deriving Repr, DecidableEq

/-- `models.RegisterRequest`. -/
structure RegisterRequest where
  email : String
  password : String
deriving Repr, DecidableEq

/-- `models.LoginRequest`. -/
structure LoginRequest where
  email : String
  password : String
deriving Repr, DecidableEq

/-- `models.CreateRoomRequest`. -/
structure CreateRoomRequest where
  name : String
  password : String
deriving Repr, DecidableEq

/-- `models.JoinRoomRequest`. -/
structure JoinRoomRequest where
  password : String
deriving Repr, DecidableEq

/-- The users and rooms tables of the backing store, plus the `SERIAL`
counter for user ids. -/
structure DBState where
  users : List User
  rooms : List Room
  nextUserID : Int
deriving Repr, DecidableEq

/-- JSON serialization of a `models.User` following its struct tags:
`id`, `email`, `subscription_type`, `created_at`; `PasswordHash` is tagged
`json:"-"` and omitted. -/
def userToJSON (u : User) : JVal :=
  .obj [("id", .num u.id), ("email", .str u.email),
        ("subscription_type", .str u.subscriptionType),
        ("created_at", .num u.createdAt)]

/-- JSON serialization of a `models.Room` following its struct tags:
`id`, `name`, `creator_id`, `is_password_protected`, `created_at`;
`Password` is tagged `json:"-"` and omitted. -/
def roomToJSON (r : Room) : JVal :=
  .obj [("id", .str r.id), ("name", .str r.name),
        ("creator_id", .num r.creatorID),
        ("is_password_protected", .jbool r.isPasswordProtected),
        ("created_at", .num r.createdAt)]

/-- JSON serialization of `models.AuthResponse`: the token string and the
serialized user. -/
def authResponseJSON (token : String) (u : User) : JVal :=
  .obj [("token", .str token), ("user", userToJSON u)]

/-! ## bcrypt model -/

/-- The salt character embedded in a modelled bcrypt hash (a digit). -/
def saltChar (salt : Fin 10) : Char := Char.ofNat (48 + salt.val)

/-- Model of `bcrypt.GenerateFromPassword`: a salted hash from which
comparison can recover the password.  Different salts give different hash
strings; the hash is always non-empty. -/
def bcryptHash (salt : Fin 10) (password : String) : String :=
  String.mk (saltChar salt :: Char.ofNat 36 :: password.data)

/-- Model of `bcrypt.CompareHashAndPassword` (true = match, i.e. nil
error): re-derives the comparison using the salt embedded in the hash; a
structurally malformed (e.g. empty) hash never matches. -/
def bcryptCompare (hash candidate : String) : Bool :=
  match hash.data with
  | _ :: sep :: rest => sep == Char.ofNat 36 && rest == candidate.data
  | _ => false

/-! ## TokenService: `middleware.GenerateToken` and the verification in
`middleware.AuthMiddleware` (jwt/v5 `ParseWithClaims`). -/

/-- A JWT signing algorithm, as named in the token header's `alg` field.
`noAlg` is the `"none"` algorithm (unsigned token). -/
inductive Alg where
  | HS256 | HS384 | HS512 | RS256 | noAlg
deriving Repr, DecidableEq

/-- The keyfunc's type assertion `token.Method.(*jwt.SigningMethodHMAC)`:
every HMAC-family method satisfies it. -/
def Alg.isHMAC : Alg → Bool
  | .HS256 => true
  | .HS384 => true
  | .HS512 => true
  | _ => false

/-- `middleware.Claims`: the custom `user_id` claim plus the registered
claims the code sets (`exp`, `iat`, `nbf` as unix seconds, `iss`). -/
structure Claims where
  userID : Int
  exp : Int
  iat : Int
  nbf : Int
  iss : String
deriving Repr, DecidableEq

/-- An HMAC signature value, modelled as a perfect MAC: it records the
algorithm, the key and the signed payload, and nothing else produces an
equal signature. -/
structure Sig where
  alg : Alg
  key : String
  payload : Claims
deriving Repr, DecidableEq

/-- Computing the MAC over the token's header (its `alg`) and payload with
a key. -/
def macSign (alg : Alg) (key : String) (payload : Claims) : Sig :=
  ⟨alg, key, payload⟩

/-- A compact three-part token: header `alg`, claims payload, and the
signature part (`none` models an absent or garbage signature segment). -/
structure Token where
  alg : Alg
  claims : Claims
  sig : Option Sig
deriving Repr, DecidableEq

/-- `middleware.GenerateToken`: claims with `exp = now + 24h`,
`iat = nbf = now`, issuer `feedback-collector`, signed with
`jwt.SigningMethodHS256` under `cfg.JWTSecret`. -/
def GenerateToken (userID : Int) (jwtSecret : String) (now : Int) : Token :=
  let claims : Claims :=
    { userID := userID, exp := now + 24 * 3600, iat := now, nbf := now,
      iss := "feedback-collector" }
  { alg := .HS256, claims := claims, sig := some (macSign .HS256 jwtSecret claims) }

/-- The failure taxonomy of token extraction and verification.
`missingCredential` and `malformedCredential` are the middleware's two
pre-parse rejections; the rest mirror jwt/v5's parse errors
(`badAlgorithm` is the keyfunc's "unexpected signing method" error). -/
inductive AuthError where
  | missingCredential
  | malformedCredential
  | malformed
  | badAlgorithm
  | badSignature
  | expired
  | notValidYet
deriving Repr, DecidableEq

/-- jwt/v5 `ParseWithClaims` with the middleware's keyfunc: rejects any
non-HMAC signing method (keyfunc type assertion), then verifies the
signature with `cfg.JWTSecret`, then validates the claims — expired unless
`now < exp`, not yet valid if `now < nbf` (zero leeway; `iat` and `iss`
are not validated by default). -/
def verifyToken (jwtSecret : String) (now : Int) (t : Token) : Except AuthError Claims :=
  if !t.alg.isHMAC then .error .badAlgorithm
  else if t.sig ≠ some (macSign t.alg jwtSecret t.claims) then .error .badSignature
  else if t.claims.exp ≤ now then .error .expired
  else if now < t.claims.nbf then .error .notValidYet
  else .ok t.claims

/-! ## RequestAuthenticator: `middleware.AuthMiddleware`, `GetUserID`. -/

/-- Helper for `stringsSplitSpace`: walks the characters, `acc` holding
the current (reversed) field. -/
def splitSpaceAux : List Char → List Char → List String
  | [], acc => [String.mk acc.reverse]
  | ch :: rest, acc =>
    if ch = ' ' then String.mk acc.reverse :: splitSpaceAux rest []
    else splitSpaceAux rest (ch :: acc)

/-- Go `strings.Split(s, " ")`: cuts `s` at every single space, keeping
empty fields. -/
def stringsSplitSpace (s : String) : List String :=
  splitSpaceAux s.data []

/-- `middleware.AuthMiddleware`.  `authHeader` is gin's
`c.GetHeader("Authorization")`, which returns `""` when the header is
absent.  `decodeTok` decodes the compact token string (`none` = the string
does not parse as a token structure, jwt's `Malformed`).  A `.error`
result models `c.AbortWithStatusJSON` followed by `return` — the handler
chain never runs; `.ok` models `c.Set("userID", claims.UserID)` followed
by `c.Next()`. -/
def AuthMiddleware (decodeTok : String → Option Token) (jwtSecret : String)
    (now : Int) (authHeader : String) (ctx : List (String × GoVal)) :
    Except (Nat × AuthError) (List (String × GoVal) × Int) :=
  if authHeader = "" then
    .error (401, .missingCredential)
  else
    match stringsSplitSpace authHeader with
    | [scheme, tokenString] =>
      if scheme ≠ "Bearer" then .error (401, .malformedCredential)
      else
        match decodeTok tokenString with
        | Option.none => .error (401, .malformed)
        | some tok =>
          match verifyToken jwtSecret now tok with
          | .error e => .error (401, e)
          | .ok claims => .ok (("userID", GoVal.int claims.userID) :: ctx, claims.userID)
    | _ => .error (401, .malformedCredential)

/-- `middleware.GetUserID`: looks up `"userID"` in the request context and
type-asserts it to `int`. -/
def GetUserID (ctx : List (String × GoVal)) : Except String Int :=
  match ctx.lookup "userID" with
  | Option.none => .error "user ID not found in context"
  | some (GoVal.int id) => .ok id
  | some _ => .error "user ID is of invalid type"

/-- Spec-side shape predicate for claim C7: the header splits on single
spaces into exactly `["Bearer", v]` for some `v` (the shape
`strings.Split` + length/scheme check accepts). -/
def isBearerShape (h : String) : Bool :=
  match stringsSplitSpace h with
  | [scheme, _] => scheme == "Bearer"
  | _ => false

/-! ## Storage layer: `internal/db/db.go`.

Errors that the callers only nil-check are modelled as `Except String`;
`GetUserByEmail`'s not-found error is the one error the code inspects with
`errors.Is`, so it is a `GoErr` with a fresh allocation identity, and the
allocation counter is threaded through. -/

/-- `db.GetUserByEmail`: selects `id, email, password_hash,
subscription_type, created_at`; on no row returns
`errors.New("user not found")` — a fresh allocation. -/
def GetUserByEmail (db : DBState) (alloc : Nat) (email : String) :
    Except GoErr User × Nat :=
  match db.users.find? (fun u => u.email == email) with
  | some u => (.ok u, alloc)
  | Option.none => (.error ⟨alloc, "user not found"⟩, alloc + 1)

/-- `db.GetUserByID`: the `SELECT` omits `password_hash`, so the scanned
`models.User` keeps its zero value `""` there; on no row the error is
only ever nil-checked, so it is a plain string. -/
def GetUserByID (db : DBState) (id : Int) : Except String User :=
  match db.users.find? (fun u => u.id == id) with
  | some u => .ok { u with passwordHash := "" }
  | Option.none => .error "user not found"

/-- `db.CreateUser`: bcrypt-hashes the password and inserts the row,
subject to the `UNIQUE` constraint on `email`; the `RETURNING` list omits
`password_hash`, so the returned `models.User` keeps `""` there while the
stored row holds the hash. -/
def CreateUser (db : DBState) (email password : String) (salt : Fin 10)
    (now : Int) : Except String (User × DBState) :=
  if db.users.any (fun u => u.email == email) then
    .error "error creating user: unique violation"
  else
    let stored : User :=
      { id := db.nextUserID, email := email,
        passwordHash := bcryptHash salt password,
        subscriptionType := "free", createdAt := now }
    .ok ({ stored with passwordHash := "" },
         { db with users := db.users ++ [stored],
                   nextUserID := db.nextUserID + 1 })

/-- `db.CreateRoom`: `isPasswordProtected := password != ""`, inserts the
row subject to the primary-key constraint on `id`; the `RETURNING` list
omits `password`, so the returned `models.Room` keeps `""` there while the
stored row holds whatever string was passed in. -/
def dbCreateRoom (db : DBState) (roomID name : String) (creatorID : Int)
    (password : String) (now : Int) : Except String (Room × DBState) :=
  if db.rooms.any (fun r => r.id == roomID) then
    .error "error creating room: unique violation"
  else
    let stored : Room :=
      { id := roomID, name := name, password := password,
        creatorID := creatorID,
        isPasswordProtected := password != "", createdAt := now }
    .ok ({ stored with password := "" },
         { db with rooms := db.rooms ++ [stored] })

/-- `db.GetRoomByID`: selects all columns including `password`; on no row
the error is only ever nil-checked. -/
def GetRoomByID (db : DBState) (id : String) : Except String Room :=
  match db.rooms.find? (fun r => r.id == id) with
  | some r => .ok r
  | Option.none => .error "room not found"

/-! ## Handlers: `handlers.Register`, `Login`, `GetCurrentUser`
(auth.go) and `handlers.CreateRoom`, `GetRoomByID`, `JoinRoom`
(the room handler file). -/

/-- `handlers.Register` (`POST /auth/register`).  `body` is the result of
`ShouldBindJSON`; `encodeTok` is the compact serialization of the signed
token.  Returns the response, the new store state and the new allocation
counter.  Note the existence pre-check: the `else if` branch compares the
store's not-found error with a **freshly allocated**
`errors.New("user not found")` via `errors.Is`. -/
def Register (db : DBState) (alloc : Nat) (salt : Fin 10) (now : Int)
    (jwtSecret : String) (encodeTok : Token → String)
    (body : Option RegisterRequest) : HResp × DBState × Nat :=
  match body with
  | Option.none => ((400, errObj "binding error"), db, alloc)
  | some req =>
    match GetUserByEmail db alloc req.email with
    | (.ok _, a1) =>
      ((409, errObj "Email already registered"), db, a1)
    | (.error err, a1) =>
      let target : GoErr := ⟨a1, "user not found"⟩
      let a2 := a1 + 1
      if !(errorsIs err target) then
        ((500, errObj "Failed to check user existence"), db, a2)
      else
        match CreateUser db req.email req.password salt now with
        | .error _ => ((500, errObj "Failed to create user"), db, a2)
        | .ok (user, db1) =>
          let tok := GenerateToken user.id jwtSecret now
          ((201, authResponseJSON (encodeTok tok) user), db1, a2)

/-- `handlers.Login` (`POST /auth/login`): fetch by email, compare the
stored bcrypt hash with the candidate, mint a token, blank the hash on
the response struct. -/
def Login (db : DBState) (alloc : Nat) (now : Int) (jwtSecret : String)
    (encodeTok : Token → String) (body : Option LoginRequest) :
    HResp × Nat :=
  match body with
  | Option.none => ((400, errObj "binding error"), alloc)
  | some req =>
    match GetUserByEmail db alloc req.email with
    | (.error _, a1) => ((401, errObj "Invalid email or password"), a1)
    | (.ok user, a1) =>
      if !(bcryptCompare user.passwordHash req.password) then
        ((401, errObj "Invalid email or password"), a1)
      else
        let tok := GenerateToken user.id jwtSecret now
        let user1 := { user with passwordHash := "" }
        ((200, authResponseJSON (encodeTok tok) user1), a1)

/-- `handlers.GetCurrentUser` (`GET /auth/me`, behind the middleware):
reads the id the middleware stored in the context, fetches the account. -/
def GetCurrentUser (db : DBState) (ctx : List (String × GoVal)) : HResp :=
  match GetUserID ctx with
  | .error _ => (401, errObj "Not authenticated")
  | .ok uid =>
    match GetUserByID db uid with
    | .error _ => (404, errObj "User not found")
    | .ok user => (200, userToJSON user)

/-- The room handler's `CreateRoom` (`POST /rooms`, behind the
middleware).  `roomID` stands for the generated `uuid.New().String()[:6]`;
the password is hashed only when non-empty, otherwise the zero value `""`
is stored. -/
def CreateRoomH (db : DBState) (ctx : List (String × GoVal)) (salt : Fin 10)
    (roomID : String) (now : Int) (body : Option CreateRoomRequest) :
    HResp × DBState :=
  match body with
  | Option.none => ((400, errObj "binding error"), db)
  | some req =>
    match GetUserID ctx with
    | .error _ => ((401, errObj "Not authenticated"), db)
    | .ok uid =>
      let passwordHash := if req.password != "" then bcryptHash salt req.password else ""
      match dbCreateRoom db roomID req.name uid passwordHash now with
      | .error _ => ((500, errObj "Failed to create room"), db)
      | .ok (room, db1) => ((201, roomToJSON room), db1)

/-- The room handler's `GetRoomByID` (`GET /rooms/:id` and
`GET /public/rooms/:id`): fetches the room and blanks the password field
before serializing. -/
def GetRoomByIDH (db : DBState) (roomID : String) : HResp :=
  match GetRoomByID db roomID with
  | .error _ => (404, errObj "Room not found")
  | .ok room => (200, roomToJSON { room with password := "" })

/-- The room handler's `JoinRoom` (`POST /public/rooms/:id/join`): binds
the body first, then fetches the room; if the room is password-protected
the candidate is checked against the stored bcrypt hash; the password
field is blanked before serializing. -/
def JoinRoom (db : DBState) (roomID : String)
    (body : Option JoinRoomRequest) : HResp :=
  match body with
  | Option.none => (400, errObj "binding error")
  | some req =>
    match GetRoomByID db roomID with
    | .error _ => (404, errObj "Room not found")
    | .ok room =>
      if room.isPasswordProtected &&
          !(bcryptCompare room.password req.password) then
        (401, errObj "Invalid room password")
      else
        (200, roomToJSON { room with password := "" })

/-! ## Claim theorems -/

/-- C3: for every user id `u`, verifying a token immediately after it is
issued for `u` succeeds and yields claims whose `user_id` equals `u`. -/
theorem issue_verify_roundtrip (u : Int) (jwtSecret : String) (now : Int) :
    verifyToken jwtSecret now (GenerateToken u jwtSecret now) =
      .ok (GenerateToken u jwtSecret now).claims ∧
    (GenerateToken u jwtSecret now).claims.userID = u := by
  refine ⟨?_, rfl⟩
  have hexp : ¬ (now + 24 * 3600 ≤ now) := by omega
  simp [verifyToken, GenerateToken, macSign, Alg.isHMAC, hexp]

/-- C4: every issued token carries `exp = iat + 24h` exactly; verification
strictly after `exp` is rejected as `Expired`; a token verified while
`iat ≤ now < exp` (i.e. before its expiry moment, with no clock-skew
leeway) is accepted, so it is never rejected as `Expired`. -/
theorem token_expiry (u : Int) (jwtSecret : String) (iat now : Int) :
    (GenerateToken u jwtSecret iat).claims.exp =
      (GenerateToken u jwtSecret iat).claims.iat + 24 * 3600 ∧
    (now > (GenerateToken u jwtSecret iat).claims.exp →
      verifyToken jwtSecret now (GenerateToken u jwtSecret iat) =
        .error .expired) ∧
    ((GenerateToken u jwtSecret iat).claims.iat ≤ now →
      now < (GenerateToken u jwtSecret iat).claims.exp →
      verifyToken jwtSecret now (GenerateToken u jwtSecret iat) =
        .ok (GenerateToken u jwtSecret iat).claims) := by
  refine ⟨rfl, ?_, ?_⟩
  · intro h
    have hexp : iat + 86400 ≤ now := by
      simp [GenerateToken] at h; omega
    simp [verifyToken, GenerateToken, macSign, Alg.isHMAC, hexp]
  · intro h1 h2
    simp [GenerateToken] at h1 h2
    have hexp : ¬ (iat + 86400 ≤ now) := by omega
    have hnbf : ¬ (now < iat) := by omega
    simp [verifyToken, GenerateToken, macSign, Alg.isHMAC, hexp, hnbf]

/-- C4 witness: the theorem at `u = 1`, secret `"k"`, `iat = 0`, evaluated
at `now = 100000 > 86400` (expired) and `now = 5 < 86400` (accepted). -/
theorem token_expiry_witness :
    (GenerateToken 1 "k" 0).claims.exp =
      (GenerateToken 1 "k" 0).claims.iat + 24 * 3600 ∧
    verifyToken "k" 100000 (GenerateToken 1 "k" 0) = .error .expired ∧
    verifyToken "k" 5 (GenerateToken 1 "k" 0) =
      .ok (GenerateToken 1 "k" 0).claims :=
  ⟨(token_expiry 1 "k" 0 0).1,
   (token_expiry 1 "k" 0 100000).2.1 (by decide),
   (token_expiry 1 "k" 0 5).2.2 (by decide) (by decide)⟩

/-- C2 counterexample: the service signs with HS256, yet a token whose
header algorithm is HS384 — a *different* algorithm than the one the
service itself uses — passes verification when its HS384 signature is
computed with the service key: the keyfunc's type assertion admits every
HMAC-family method, not only HS256. -/
theorem alg_confusion_counterexample :
    (GenerateToken 1 "k" 0).alg = Alg.HS256 ∧
    (Token.mk Alg.HS384 ⟨1, 86400, 0, 0, "feedback-collector"⟩
      (some (macSign Alg.HS384 "k" ⟨1, 86400, 0, 0, "feedback-collector"⟩))).alg ≠
      Alg.HS256 ∧
    verifyToken "k" 0
      (Token.mk Alg.HS384 ⟨1, 86400, 0, 0, "feedback-collector"⟩
        (some (macSign Alg.HS384 "k" ⟨1, 86400, 0, 0, "feedback-collector"⟩))) =
      .ok ⟨1, 86400, 0, 0, "feedback-collector"⟩ := by
  refine ⟨rfl, by decide, rfl⟩

/-- C2 amended: token verification rejects every token whose signing
algorithm is outside the HMAC family — in particular an absent/"none"
algorithm or a non-HMAC algorithm such as RS256 is rejected outright —
though any HMAC-family algorithm (HS256/HS384/HS512) is admitted by the
keyfunc, not only the HS256 the service signs with. -/
theorem non_hmac_alg_rejected (t : Token) (jwtSecret : String) (now : Int)
    (h : t.alg.isHMAC = false) :
    verifyToken jwtSecret now t = .error .badAlgorithm := by
  simp [verifyToken, h]

/-- C2 amended witness: an unsigned token with the "none" algorithm is
rejected. -/
theorem non_hmac_alg_rejected_witness :
    verifyToken "k" 0
      (Token.mk Alg.noAlg ⟨1, 86400, 0, 0, "feedback-collector"⟩ Option.none) =
      .error .badAlgorithm :=
  non_hmac_alg_rejected
    (Token.mk Alg.noAlg ⟨1, 86400, 0, 0, "feedback-collector"⟩ Option.none)
    "k" 0 rfl

/-- C10: joining a room requires a body that binds: whenever JSON binding
fails, `JoinRoom` answers 400 — for *every* store state and room id, so
in particular also when the room does not exist (no 404) and when the
room is not password-protected (no 200), because binding happens before
the room lookup. -/
theorem joinroom_binds_before_lookup (db : DBState) (roomID : String) :
    JoinRoom db roomID Option.none = (400, errObj "binding error") := rfl

/-- C1: evaluating `Register` on the spec's concrete scenario — an empty
store and the request `("a@x.com", "secret1")`, an email that is not
registered — returns 500 "Failed to check user existence", not the 201
the spec promises.  The cause: `errors.Is(err, errors.New("user not
found"))` compares the store's not-found error with a freshly allocated
error value, which is never the same allocation, so the pre-check always
takes the "database error" branch for a fresh email. -/
theorem register_fresh_email_returns_500 (db : DBState) (alloc : Nat)
    (salt : Fin 10) (now : Int) (jwtSecret : String)
    (encodeTok : Token → String) (req : RegisterRequest)
    (h : db.users.find? (fun u => u.email == req.email) = Option.none) :
    (Register db alloc salt now jwtSecret encodeTok (some req)).1 =
      (500, errObj "Failed to check user existence") := by
  simp only [Register, GetUserByEmail, h, errorsIs]
  have hne : (GoErr.mk alloc "user not found") ≠ (GoErr.mk (alloc + 1) "user not found") := by
    intro hc
    have := congrArg GoErr.allocID hc
    simp at this
  simp [hne]

/-- C1 witness: the failing input itself — empty user table, request
`("a@x.com", "secret1")` — yields status 500. -/
theorem register_fresh_email_returns_500_witness :
    (Register ⟨[], [], 1⟩ 0 0 0 "k" (fun _ => "T")
        (some ⟨"a@x.com", "secret1"⟩)).1 =
      (500, errObj "Failed to check user existence") :=
  register_fresh_email_returns_500 ⟨[], [], 1⟩ 0 0 0 "k" (fun _ => "T")
    ⟨"a@x.com", "secret1"⟩ rfl

/-- Comparison against a modelled bcrypt hash succeeds exactly for the
hashed password, case-sensitively. -/
theorem bcryptCompare_hash (salt : Fin 10) (p c : String) :
    bcryptCompare (bcryptHash salt p) c = true ↔ c = p := by
  constructor
  · intro h
    simp [bcryptCompare, bcryptHash] at h
    exact (String.ext h).symm
  · intro h
    subst h
    simp [bcryptCompare, bcryptHash]

/-- C5: with a room looked up from the store, joining is unconditionally
granted (200 with the public view) when the room is not
password-protected — also for the empty candidate — and when it is
password-protected the join succeeds exactly when the candidate equals
the secret whose bcrypt hash is stored, case-sensitively, any mismatch
answering 401. -/
theorem joinroom_secret_gate (db : DBState) (rid : String) (room : Room)
    (cand : String) (hfind : GetRoomByID db rid = .ok room) :
    (room.isPasswordProtected = false →
      JoinRoom db rid (some ⟨cand⟩) =
        (200, roomToJSON { room with password := "" })) ∧
    (∀ salt s, room.isPasswordProtected = true →
      room.password = bcryptHash salt s →
      JoinRoom db rid (some ⟨cand⟩) =
        if cand = s then (200, roomToJSON { room with password := "" })
        else (401, errObj "Invalid room password")) := by
  constructor
  · intro hflag
    simp [JoinRoom, hfind, hflag]
  · intro salt s hflag hpwd
    by_cases hc : cand = s
    · subst hc
      have hbc : bcryptCompare room.password cand = true := by
        rw [hpwd]; exact (bcryptCompare_hash salt cand cand).mpr rfl
      simp [JoinRoom, hfind, hflag, hbc]
    · have hbc : bcryptCompare room.password cand = false := by
        rw [hpwd]
        cases hb : bcryptCompare (bcryptHash salt s) cand
        · rfl
        · exact absurd ((bcryptCompare_hash salt s cand).mp hb) hc
      simp [JoinRoom, hfind, hflag, hbc, hc]

/-- C5 witness: in a store with an open room and a room gated by the
bcrypt hash of "abc123", joining the open room with the empty string
gives 200, and the gated room accepts exactly "abc123" while rejecting
"ABC123" and "". -/
theorem joinroom_secret_gate_witness :
    JoinRoom ⟨[], [⟨"r00000", "open", "", 1, false, 0⟩,
        ⟨"r00001", "gated", bcryptHash 0 "abc123", 1, true, 0⟩], 1⟩
      "r00000" (some ⟨""⟩) =
      (200, roomToJSON ⟨"r00000", "open", "", 1, false, 0⟩) ∧
    JoinRoom ⟨[], [⟨"r00000", "open", "", 1, false, 0⟩,
        ⟨"r00001", "gated", bcryptHash 0 "abc123", 1, true, 0⟩], 1⟩
      "r00001" (some ⟨"abc123"⟩) =
      (200, roomToJSON ⟨"r00001", "gated", "", 1, true, 0⟩) ∧
    JoinRoom ⟨[], [⟨"r00000", "open", "", 1, false, 0⟩,
        ⟨"r00001", "gated", bcryptHash 0 "abc123", 1, true, 0⟩], 1⟩
      "r00001" (some ⟨"ABC123"⟩) = (401, errObj "Invalid room password") ∧
    JoinRoom ⟨[], [⟨"r00000", "open", "", 1, false, 0⟩,
        ⟨"r00001", "gated", bcryptHash 0 "abc123", 1, true, 0⟩], 1⟩
      "r00001" (some ⟨""⟩) = (401, errObj "Invalid room password") := by
  refine ⟨?_, ?_, ?_, ?_⟩
  · simpa using
      (joinroom_secret_gate
        ⟨[], [⟨"r00000", "open", "", 1, false, 0⟩,
          ⟨"r00001", "gated", bcryptHash 0 "abc123", 1, true, 0⟩], 1⟩
        "r00000" ⟨"r00000", "open", "", 1, false, 0⟩ "" rfl).1 rfl
  · simpa using
      (joinroom_secret_gate
        ⟨[], [⟨"r00000", "open", "", 1, false, 0⟩,
          ⟨"r00001", "gated", bcryptHash 0 "abc123", 1, true, 0⟩], 1⟩
        "r00001" ⟨"r00001", "gated", bcryptHash 0 "abc123", 1, true, 0⟩
        "abc123" rfl).2 0 "abc123" rfl rfl
  · simpa using
      (joinroom_secret_gate
        ⟨[], [⟨"r00000", "open", "", 1, false, 0⟩,
          ⟨"r00001", "gated", bcryptHash 0 "abc123", 1, true, 0⟩], 1⟩
        "r00001" ⟨"r00001", "gated", bcryptHash 0 "abc123", 1, true, 0⟩
        "ABC123" rfl).2 0 "abc123" rfl rfl
  · simpa using
      (joinroom_secret_gate
        ⟨[], [⟨"r00000", "open", "", 1, false, 0⟩,
          ⟨"r00001", "gated", bcryptHash 0 "abc123", 1, true, 0⟩], 1⟩
        "r00001" ⟨"r00001", "gated", bcryptHash 0 "abc123", 1, true, 0⟩
        "" rfl).2 0 "abc123" rfl rfl

/-- C7: a request with no Authorization header is rejected 401 as a
missing credential, and a non-empty header that does not split into
exactly `["Bearer", v]` is rejected 401 as a malformed credential; in
both cases the middleware aborts (the `.error` result), so no handler
runs. -/
theorem middleware_rejects_missing_or_malformed
    (decodeTok : String → Option Token) (jwtSecret : String) (now : Int)
    (authHeader : String) (ctx : List (String × GoVal)) :
    (authHeader = "" →
      AuthMiddleware decodeTok jwtSecret now authHeader ctx =
        .error (401, .missingCredential)) ∧
    (authHeader ≠ "" → isBearerShape authHeader = false →
      AuthMiddleware decodeTok jwtSecret now authHeader ctx =
        .error (401, .malformedCredential)) := by
  constructor
  · intro h
    simp [AuthMiddleware, h]
  · intro h1 h2
    rcases hs : stringsSplitSpace authHeader with _ | ⟨a, _ | ⟨b, _ | ⟨c, rest⟩⟩⟩
    · simp [AuthMiddleware, h1, hs]
    · simp [AuthMiddleware, h1, hs]
    · simp [isBearerShape, hs] at h2
      simp [AuthMiddleware, h1, hs, h2]
    · simp [AuthMiddleware, h1, hs]

/-- C7 witness: the middleware at a concrete request — absent header
rejected as missing, header `"Basic abc"` rejected as malformed. -/
theorem middleware_rejects_witness :
    AuthMiddleware (fun _ => Option.none) "k" 0 "" [] =
      .error (401, .missingCredential) ∧
    AuthMiddleware (fun _ => Option.none) "k" 0 "Basic abc" [] =
      .error (401, .malformedCredential) :=
  ⟨(middleware_rejects_missing_or_malformed (fun _ => Option.none) "k" 0
      "" []).1 rfl,
   (middleware_rejects_missing_or_malformed (fun _ => Option.none) "k" 0
      "Basic abc" []).2 (by decide) (by decide)⟩

/-- The C8 invariant on a stored room row: the derived flag equals the
presence of a non-empty stored password hash. -/
def roomFlagInv (r : Room) : Bool :=
  r.isPasswordProtected == (r.password != "")

/-- C8: the flag/hash invariant holds for every room ever created and no
operation in scope breaks it: `db.CreateRoom` — the only operation that
writes a room — always stores a row whose flag equals the presence of a
non-empty password string (for any password argument, hence for both the
handler's bcrypt hash and its empty zero value), so a store whose rooms
all satisfy the invariant still does after the room-creation handler
runs (the join/get handlers do not write the store at all, as their
types show). -/
theorem room_flag_matches_hash (db : DBState)
    (hinv : ∀ r ∈ db.rooms, roomFlagInv r = true)
    (ctx : List (String × GoVal)) (salt : Fin 10) (rid : String)
    (now : Int) (body : Option CreateRoomRequest) :
    (∀ roomID name creatorID password now2 res,
       dbCreateRoom db roomID name creatorID password now2 = .ok res →
       ∀ r ∈ res.2.rooms, roomFlagInv r = true) ∧
    (∀ r ∈ (CreateRoomH db ctx salt rid now body).2.rooms,
       roomFlagInv r = true) := by
  have hcreate : ∀ roomID name creatorID password now2 res,
      dbCreateRoom db roomID name creatorID password now2 = .ok res →
      ∀ r ∈ res.2.rooms, roomFlagInv r = true := by
    intro roomID name creatorID password now2 res hok r hr
    unfold dbCreateRoom at hok
    split at hok
    · exact Except.noConfusion hok
    · injection hok with hres
      subst hres
      simp only [List.mem_append, List.mem_singleton] at hr
      rcases hr with hr | hr
      · exact hinv r hr
      · subst hr
        simp [roomFlagInv]
  refine ⟨hcreate, ?_⟩
  intro r hr
  cases body with
  | none => exact hinv r hr
  | some req =>
    rcases hu : GetUserID ctx with e | uid
    · simp only [CreateRoomH, hu] at hr
      exact hinv r (by simpa using hr)
    · simp only [CreateRoomH, hu] at hr
      rcases hc : dbCreateRoom db rid req.name uid
          (if req.password != "" then bcryptHash salt req.password else "") now
        with e | res
      · rw [hc] at hr
        exact hinv r (by simpa using hr)
      · rw [hc] at hr
        exact hcreate rid req.name uid _ now res hc r (by simpa using hr)

/-- C8 witness: the gated room the creation handler stores for the
request ("Room", "topsecret") satisfies the invariant. -/
theorem room_flag_matches_hash_witness :
    roomFlagInv ⟨"r00001", "Room", bcryptHash 0 "topsecret", 1,
      bcryptHash 0 "topsecret" != "", 0⟩ = true :=
  (room_flag_matches_hash ⟨[], [], 1⟩ (by simp) [("userID", GoVal.int 1)] 0
      "r00001" 0 (some ⟨"Room", "topsecret"⟩)).2
    ⟨"r00001", "Room", bcryptHash 0 "topsecret", 1,
      bcryptHash 0 "topsecret" != "", 0⟩
    (by decide)

/-- C9: whenever the middleware lets a request through, the context it
hands downstream holds the verified token's UserID as an int under the
key "userID", so `GetUserID` on that context returns exactly that id —
taking neither its missing-value nor its wrong-type error branch — and
the id is the `user_id` claim of a token that decoded and verified. -/
theorem context_userid_consistent (decodeTok : String → Option Token)
    (jwtSecret : String) (now : Int) (authHeader : String)
    (ctx : List (String × GoVal)) (res : List (String × GoVal) × Int)
    (h : AuthMiddleware decodeTok jwtSecret now authHeader ctx = .ok res) :
    res.1.lookup "userID" = some (GoVal.int res.2) ∧
    GetUserID res.1 = .ok res.2 ∧
    ∃ tokenString tok claims,
      decodeTok tokenString = some tok ∧
      verifyToken jwtSecret now tok = .ok claims ∧
      res.2 = claims.userID := by
  unfold AuthMiddleware at h
  split at h
  · exact Except.noConfusion h
  · split at h
    · split at h
      · exact Except.noConfusion h
      · split at h
        · exact Except.noConfusion h
        · rename_i tok hd
          split at h
          · exact Except.noConfusion h
          · rename_i claims hv
            injection h with h1
            subst h1
            exact ⟨by simp [List.lookup], by simp [GetUserID, List.lookup],
              _, tok, claims, hd, hv, rfl⟩
    · exact Except.noConfusion h

/-- C9 witness: a request that passes the middleware carrying a token for
user 7 — the downstream lookup finds exactly 7. -/
theorem context_userid_consistent_witness :
    ([("userID", GoVal.int 7)] : List (String × GoVal)).lookup "userID" =
      some (GoVal.int 7) ∧
    GetUserID [("userID", GoVal.int 7)] = .ok 7 ∧
    ∃ (tokenString : String) (tok : Token) (claims : Claims),
      some (GenerateToken 7 "k" 0) = some tok ∧
      verifyToken "k" 0 tok = .ok claims ∧
      (7 : Int) = claims.userID :=
  context_userid_consistent (fun _ => some (GenerateToken 7 "k" 0)) "k" 0
    "Bearer x" [] ([("userID", GoVal.int 7)], 7) rfl

/-- The outward-facing JSON value mentions neither of the stored hash
keys — the users' `password_hash` column key nor the rooms' `password`
column key — at any nesting level. -/
inductive HashFree : JVal → Prop where
  | num : ∀ n, HashFree (.num n)
  | str : ∀ s, HashFree (.str s)
  | jbool : ∀ b, HashFree (.jbool b)
  | obj : ∀ fields,
      (∀ kv ∈ fields, kv.1 ≠ "password_hash") →
      (∀ kv ∈ fields, kv.1 ≠ "password") →
      (∀ kv ∈ fields, HashFree kv.2) →
      HashFree (.obj fields)

/-- Error bodies are hash-free. -/
theorem hashFree_errObj (m : String) : HashFree (errObj m) := by
  refine .obj _ ?_ ?_ ?_ <;> intro kv hkv <;> simp [errObj] at hkv <;>
    subst hkv
  · simp
  · simp
  · exact .str m

/-- Serialized users are hash-free. -/
theorem hashFree_userToJSON (u : User) : HashFree (userToJSON u) := by
  refine .obj _ ?_ ?_ ?_ <;> intro kv hkv <;> simp [userToJSON] at hkv <;>
    rcases hkv with rfl | rfl | rfl | rfl <;>
    first
      | exact HashFree.num _
      | exact HashFree.str _
      | exact HashFree.jbool _
      | simp

/-- Serialized rooms are hash-free. -/
theorem hashFree_roomToJSON (r : Room) : HashFree (roomToJSON r) := by
  refine .obj _ ?_ ?_ ?_ <;> intro kv hkv <;> simp [roomToJSON] at hkv <;>
    rcases hkv with rfl | rfl | rfl | rfl | rfl <;>
    first
      | exact HashFree.num _
      | exact HashFree.str _
      | exact HashFree.jbool _
      | simp

/-- Serialized auth responses are hash-free. -/
theorem hashFree_authResponseJSON (t : String) (u : User) :
    HashFree (authResponseJSON t u) := by
  refine .obj _ ?_ ?_ ?_ <;> intro kv hkv <;>
    simp [authResponseJSON] at hkv <;> rcases hkv with rfl | rfl <;>
    first
      | exact HashFree.str _
      | exact hashFree_userToJSON u
      | simp

/-- C6: the user/room serializers are invariant in the stored hash
field's value, and every response body produced by register, login,
get-current-user, get-room and join-room is hash-free at every nesting
level — no outward representation ever includes the stored hash. -/
theorem views_never_expose_hash :
    (∀ u h, userToJSON { u with passwordHash := h } = userToJSON u) ∧
    (∀ r h, roomToJSON { r with password := h } = roomToJSON r) ∧
    (∀ db alloc salt now jwtSecret encodeTok body,
      HashFree (Register db alloc salt now jwtSecret encodeTok body).1.2) ∧
    (∀ db alloc now jwtSecret encodeTok body,
      HashFree (Login db alloc now jwtSecret encodeTok body).1.2) ∧
    (∀ db ctx, HashFree (GetCurrentUser db ctx).2) ∧
    (∀ db rid, HashFree (GetRoomByIDH db rid).2) ∧
    (∀ db rid body, HashFree (JoinRoom db rid body).2) := by
  refine ⟨fun u h => rfl, fun r h => rfl, ?_, ?_, ?_, ?_, ?_⟩
  · intro db alloc salt now jwtSecret encodeTok body
    cases body with
    | none => exact hashFree_errObj _
    | some req =>
      rcases hg : GetUserByEmail db alloc req.email with ⟨e | u, a1⟩
      · simp only [Register, hg]
        by_cases hie : errorsIs e ⟨a1, "user not found"⟩ = true
        · simp only [hie]
          rcases hcu : CreateUser db req.email req.password salt now
            with ce | ⟨u2, db1⟩
          · simp [hcu]
            exact hashFree_errObj _
          · simp [hcu]
            exact hashFree_authResponseJSON _ _
        · simp only [Bool.not_eq_true] at hie
          simp [hie]
          exact hashFree_errObj _
      · simp only [Register, hg]
        exact hashFree_errObj _
  · intro db alloc now jwtSecret encodeTok body
    cases body with
    | none => exact hashFree_errObj _
    | some req =>
      rcases hg : GetUserByEmail db alloc req.email with ⟨e | u, a1⟩
      · simp only [Login, hg]
        exact hashFree_errObj _
      · simp only [Login, hg]
        by_cases hb : bcryptCompare u.passwordHash req.password = true
        · simp [hb]
          exact hashFree_authResponseJSON _ _
        · simp only [Bool.not_eq_true] at hb
          simp [hb]
          exact hashFree_errObj _
  · intro db ctx
    rcases hu : GetUserID ctx with e | uid
    · simp only [GetCurrentUser, hu]
      exact hashFree_errObj _
    · rcases hg : GetUserByID db uid with e | user
      · simp only [GetCurrentUser, hu, hg]
        exact hashFree_errObj _
      · simp only [GetCurrentUser, hu, hg]
        exact hashFree_userToJSON _
  · intro db rid
    rcases hg : GetRoomByID db rid with e | room
    · simp only [GetRoomByIDH, hg]
      exact hashFree_errObj _
    · simp only [GetRoomByIDH, hg]
      exact hashFree_roomToJSON _
  · intro db rid body
    cases body with
    | none => exact hashFree_errObj _
    | some req =>
      rcases hg : GetRoomByID db rid with e | room
      · simp only [JoinRoom, hg]
        exact hashFree_errObj _
      · simp only [JoinRoom, hg]
        by_cases hp : (room.isPasswordProtected &&
            !(bcryptCompare room.password req.password)) = true
        · simp [hp]
          exact hashFree_errObj _
        · simp only [Bool.not_eq_true] at hp
          simp [hp]
          exact hashFree_roomToJSON _
